import Mathlib

/-!
# Verification of the playback-to-recording orchestrator

Shallow embedding of `src/renderer/lib/dolphin.ts` from project-clippi:
the `DolphinRecorder` class (event pipeline, playback handler, stop routine),
the queue materializer (`loadSlpFilesInDolphin`), queue persistence
(`loadQueueIntoDolphin` / `saveQueueToFile`), and the persisted queue JSON
format.

The OBS connection (`obsConnection` from `@/lib/obs`) is an external
collaborator here: its query results (`isConnected`, `isRecording`) and the
outcome and duration of each `setRecordingState` round-trip are supplied as
an explicit per-event environment.  The reactive pipeline
(`filter` + `concatMap` over `playbackStatus$`, as wired in the
`DolphinRecorder` constructor) is embedded as strictly sequential
processing: `concatMap` subscribes to the inner observable produced from
the handler promise only after the previous inner observable has completed,
and an error of any inner observable terminates the whole subscription.
-/

/-- `OBSRecordingAction` — the commands accepted by the OBS connection
(`setRecordingState`). -/
inductive OBSRecordingAction where
  | START
  | STOP
  | PAUSE
  | UNPAUSE
deriving DecidableEq, Repr

/-- `DolphinPlaybackStatus` (from `@vinceau/slp-realtime`): the event types
emitted on `playbackStatus$`.  Only the first three are handled by the
`switch` in `_handleDolphinPlayback`; `FILE_LOADED` falls through. -/
inductive DolphinPlaybackStatus where
  | PLAYBACK_START
  | PLAYBACK_END
  | QUEUE_EMPTY
  | FILE_LOADED
deriving DecidableEq, Repr

/-- The optional `data` field of a playback payload; `gameEnded` records
whether the game concluded naturally rather than being skipped. -/
structure PlaybackData where
  gameEnded : Bool
deriving DecidableEq, Repr

/-- `DolphinPlaybackPayload`: an event on `playbackStatus$`, a status tag
plus an optional data record. -/
structure DolphinPlaybackPayload where
  status : DolphinPlaybackStatus
  data : Option PlaybackData
deriving DecidableEq, Repr

/-- Truthiness of `payload.data && payload.data.gameEnded` in the source. -/
def dataGameEnded : Option PlaybackData → Bool
  | some d => d.gameEnded
  | none => false

/-- `DELAY_AMOUNT_MS` from the source: the settle delay before the
end-of-game suspend action, in milliseconds. -/
def DELAY_AMOUNT_MS : Nat := 1000

/-- `DolphinPlayerOptions` — the fully resolved per-load options. -/
structure DolphinPlayerOptions where
  record : Bool
  pauseBetweenEntries : Bool
deriving DecidableEq, Repr

/-- `defaultDolphinPlayerOptions` from the source:
`{ record: false, pauseBetweenEntries: true }`. -/
def defaultDolphinPlayerOptions : DolphinPlayerOptions :=
  { record := false, pauseBetweenEntries := true }

/-- `Partial<DolphinPlayerOptions>`: each field may be absent. -/
structure PartialDolphinPlayerOptions where
  record : Option Bool := none
  pauseBetweenEntries : Option Bool := none
deriving DecidableEq, Repr

/-- `Object.assign({}, defaultDolphinPlayerOptions, options)` — absent
fields fall back to the defaults. -/
def assignPlayerOptions : Option PartialDolphinPlayerOptions → DolphinPlayerOptions
  | none => defaultDolphinPlayerOptions
  | some p =>
    { record := p.record.getD defaultDolphinPlayerOptions.record,
      pauseBetweenEntries :=
        p.pauseBetweenEntries.getD defaultDolphinPlayerOptions.pauseBetweenEntries }

/-- The mutable fields of the `DolphinRecorder` class, plus the liveness of
the launched Dolphin process handle (`this.dolphin`) and the current value
of `currentBasenameSource` (a `BehaviorSubject` initialised to `""`). -/
structure DolphinRecorder where
  recordingEnabled : Bool
  startAction : OBSRecordingAction
  endAction : OBSRecordingAction
  currentBasename : String
  dolphinAlive : Bool
deriving DecidableEq, Repr

/-- The recorder as freshly constructed: recording disabled,
`startAction = START`, `endAction = STOP`, empty basename, no process. -/
def initialRecorder : DolphinRecorder :=
  { recordingEnabled := false,
    startAction := OBSRecordingAction.START,
    endAction := OBSRecordingAction.STOP,
    currentBasename := "",
    dolphinAlive := false }

/-- `DolphinRecorder.loadJSON`: resolve the options against the defaults,
store `recordingEnabled`, and (only when recording is enabled) derive the
start/end action pair from `pauseBetweenEntries`; then `super.loadJSON`
launches the Dolphin process. -/
def loadJSON (s : DolphinRecorder) (options : Option PartialDolphinPlayerOptions) :
    DolphinRecorder :=
  let opts := assignPlayerOptions options
  let s1 := { s with recordingEnabled := opts.record }
  let s2 :=
    if opts.record then
      { s1 with
        startAction :=
          if opts.pauseBetweenEntries then OBSRecordingAction.UNPAUSE
          else OBSRecordingAction.START,
        endAction :=
          if opts.pauseBetweenEntries then OBSRecordingAction.PAUSE
          else OBSRecordingAction.STOP }
    else s1
  { s2 with dolphinAlive := true }

/-- The per-event environment: what the external OBS connection answers
during the handling of one event.  `connected` is the `isConnected()` result
read by the pipeline's `filter` gate, `recording` the `isRecording()` result
should the handler query it, `cmdFails` whether the (at most one)
`setRecordingState` round-trip of this event rejects, and `cmdDuration` how
many milliseconds that round-trip takes. -/
structure EventEnv where
  connected : Bool
  recording : Bool
  cmdFails : Bool
  cmdDuration : Nat
deriving DecidableEq, Repr

/-- Observable steps performed by the recorder while handling one event, in
program order. -/
inductive Effect where
  | queryIsRecording (result : Bool)
  | cmd (action : OBSRecordingAction) (failed : Bool) (duration : Nat)
  | setBasename (name : String)
  | killDolphin
  | sleep (ms : Nat)
deriving DecidableEq, Repr

/-- Result of running one (asynchronous) handler invocation: the updated
recorder fields, the ordered effects performed, and whether the returned
promise rejected. -/
structure StepResult where
  state : DolphinRecorder
  trace : List Effect
  errored : Bool
deriving DecidableEq, Repr

/-- `DolphinRecorder._stopRecording(killDolphin?)`: first push `""` onto
`currentBasenameSource`; then, if OBS reports recording, await a hard
`STOP` (a rejection propagates, skipping the kill); finally, if
`killDolphin` was passed and the process handle is set, kill Dolphin. -/
def stopRecordingRun (s : DolphinRecorder) (env : EventEnv) (killDolphin : Bool) :
    StepResult :=
  let s1 := { s with currentBasename := "" }
  if env.recording then
    let tr := [Effect.setBasename "", Effect.queryIsRecording true,
               Effect.cmd OBSRecordingAction.STOP env.cmdFails env.cmdDuration]
    if env.cmdFails then
      { state := s1, trace := tr, errored := true }
    else if killDolphin && s1.dolphinAlive then
      { state := { s1 with dolphinAlive := false },
        trace := tr ++ [Effect.killDolphin], errored := false }
    else
      { state := s1, trace := tr, errored := false }
  else
    let tr := [Effect.setBasename "", Effect.queryIsRecording false]
    if killDolphin && s1.dolphinAlive then
      { state := { s1 with dolphinAlive := false },
        trace := tr ++ [Effect.killDolphin], errored := false }
    else
      { state := s1, trace := tr, errored := false }

/-- `DolphinRecorder._handleDolphinPlayback(payload)`: the `switch` on
`payload.status`.  `PLAYBACK_START` queries `isRecording()` and awaits
either the stored start action or a plain `START`; `PLAYBACK_END` optionally
awaits the settle delay and then awaits the stored end action;
`QUEUE_EMPTY` runs `_stopRecording(true)`; anything else does nothing. -/
def handleDolphinPlayback (s : DolphinRecorder) (env : EventEnv)
    (payload : DolphinPlaybackPayload) : StepResult :=
  match payload.status with
  | DolphinPlaybackStatus.PLAYBACK_START =>
    let action := if env.recording then s.startAction else OBSRecordingAction.START
    { state := s,
      trace := [Effect.queryIsRecording env.recording,
                Effect.cmd action env.cmdFails env.cmdDuration],
      errored := env.cmdFails }
  | DolphinPlaybackStatus.PLAYBACK_END =>
    let pre : List Effect :=
      if dataGameEnded payload.data then [Effect.sleep DELAY_AMOUNT_MS] else []
    { state := s,
      trace := pre ++ [Effect.cmd s.endAction env.cmdFails env.cmdDuration],
      errored := env.cmdFails }
  | DolphinPlaybackStatus.QUEUE_EMPTY => stopRecordingRun s env true
  | DolphinPlaybackStatus.FILE_LOADED =>
    { state := s, trace := [], errored := false }

/-- Result of running the `playbackStatus$` subscription over a finite list
of emitted events: final recorder fields, the per-event effect traces (event
index paired with that handler invocation's trace), and whether the
subscription was torn down by an error. -/
structure RunResult where
  state : DolphinRecorder
  traces : List (Nat × List Effect)
  errored : Bool
deriving DecidableEq, Repr

/-- The `playbackStatus$` pipeline from the `DolphinRecorder` constructor:
`filter(() => this.recordingEnabled && obsConnection.isConnected())`
followed by `concatMap(payload => from(this._handleDolphinPlayback(payload)))`
with a bare `.subscribe()`.  Events failing the gate are dropped; handlers
run strictly one at a time in emission order; a rejected handler promise
errors the stream and ends the subscription, so later events are never
handled. -/
def runEventsAux (s : DolphinRecorder) (i : Nat) :
    List (DolphinPlaybackPayload × EventEnv) → RunResult
  | [] => { state := s, traces := [], errored := false }
  | (payload, env) :: rest =>
    if s.recordingEnabled && env.connected then
      let r := handleDolphinPlayback s env payload
      if r.errored then
        { state := r.state, traces := [(i, r.trace)], errored := true }
      else
        let rr := runEventsAux r.state (i + 1) rest
        { state := rr.state, traces := (i, r.trace) :: rr.traces,
          errored := rr.errored }
    else
      runEventsAux s (i + 1) rest

/-- Run the playback-event subscription from event index `0`. -/
def runEvents (s : DolphinRecorder) (evs : List (DolphinPlaybackPayload × EventEnv)) :
    RunResult :=
  runEventsAux s 0 evs

/-- The `dolphinQuit$` pipeline from the constructor: the same armed gate,
then `concatMap(() => from(this._stopRecording()))` — `_stopRecording`
called without the kill flag. -/
def handleDolphinQuit (s : DolphinRecorder) (env : EventEnv) : StepResult :=
  if s.recordingEnabled && env.connected then
    stopRecordingRun s env false
  else
    { state := s, trace := [], errored := false }

/-- Logical time consumed by one effect: the settle delay sleeps, the
`setRecordingState` round-trip takes its duration; queries and local
operations are instantaneous. -/
def effectTime : Effect → Nat
  | Effect.sleep ms => ms
  | Effect.cmd _ _ d => d
  | _ => 0

/-- Total logical duration of a trace. -/
def traceDuration : List Effect → Nat
  | [] => 0
  | e :: es => effectTime e + traceDuration es

/-- A `setRecordingState` call placed on the logical time line: which event
caused it, which action it carried, and the interval `[start, finish]` of
its round-trip. -/
structure TimedCmd where
  eventIdx : Nat
  action : OBSRecordingAction
  start : Nat
  finish : Nat
deriving DecidableEq, Repr

/-- The commands of one handler trace, timed starting at `t`. -/
def timedCmdsOfTrace (i : Nat) (t : Nat) : List Effect → List TimedCmd
  | [] => []
  | Effect.cmd a _ d :: es =>
    { eventIdx := i, action := a, start := t, finish := t + d } ::
      timedCmdsOfTrace i (t + d) es
  | e :: es => timedCmdsOfTrace i (t + effectTime e) es

/-- The commands of a whole run, timed starting at `t`: each handler's trace
occupies the time line before the next handler begins (the `concatMap`
discipline). -/
def timedCmdsOfRun (t : Nat) : List (Nat × List Effect) → List TimedCmd
  | [] => []
  | (i, tr) :: rest =>
    timedCmdsOfTrace i t tr ++ timedCmdsOfRun (t + traceDuration tr) rest

/-- Command `c₁` wholly precedes `c₂`: it was caused by an earlier (or the
same) emission and its round-trip finishes before `c₂`'s begins. -/
def CmdOrdered (c₁ c₂ : TimedCmd) : Prop :=
  c₁.eventIdx ≤ c₂.eventIdx ∧ c₁.finish ≤ c₂.start

/-- The actions of the `setRecordingState` calls in one trace, in order. -/
def traceCmds : List Effect → List OBSRecordingAction
  | [] => []
  | Effect.cmd a _ _ :: es => a :: traceCmds es
  | _ :: es => traceCmds es

/-- All effects of a run, concatenated in order. -/
def runEffects (r : RunResult) : List Effect :=
  (r.traces.map Prod.snd).flatten

/-- All `setRecordingState` actions of a run, in order. -/
def runCmds (r : RunResult) : List OBSRecordingAction :=
  (r.traces.map (fun p => traceCmds p.2)).flatten

/-- Node's `path.extname` (posix): the substring of the basename from its
last `.` to the end; empty when the basename has no `.` or when its only
`.` is the leading character (hidden files). -/
def extname (p : String) : String :=
  let base := (p.toList.reverse.takeWhile (fun c => c ≠ '/')).reverse
  let revBase := base.reverse
  let afterDot := revBase.takeWhile (fun c => c ≠ '.')
  if afterDot.length = revBase.length then ""
  else if afterDot.length = base.length - 1 then ""
  else String.mk ('.' :: afterDot.reverse)

/-- `DolphinEntry`: one replay file reference inside a queue, `{path}`. -/
structure DolphinEntry where
  path : String
deriving DecidableEq, Repr

/-- `loadSlpFilesInDolphin(filenames)`: keep only the filenames whose
extension is `.slp`, wrap each as `{path}`; when nothing survives the
filter, return without generating a payload or writing a file (`none`),
otherwise hand the queue to the payload generator (`some queue`). -/
def loadSlpFilesInDolphin (filenames : List String) : Option (List DolphinEntry) :=
  let queue :=
    (filenames.filter (fun filename => extname filename = ".slp")).map
      (fun filename => ({ path := filename } : DolphinEntry))
  if queue.length = 0 then none else some queue

/-- Modelled from the spec: the queue-level options spread into the
persisted document (`{ ...queueOptions, queue: [...] }`).  The concrete
option record (`DolphinQueueOptions` of `@vinceau/slp-realtime`, read from
the store's `tempContainer`) is not part of this repository's sources. -/
structure DolphinQueueOptions where
  mode : String
  replay : String
  isRealTimeMode : Bool
  outputOverlayFiles : Bool
deriving DecidableEq, Repr

/-- `DolphinQueueFormat`: the document shape
`{ ...dolphinQueueOptions, queue: dolphinQueue }` built by
`loadQueueIntoDolphin` and `saveQueueToFile`. -/
structure DolphinQueueFormat where
  options : DolphinQueueOptions
  queue : List DolphinEntry
deriving DecidableEq, Repr

/-- A JSON document, as far as the persisted queue format needs. -/
inductive Json where
  | str (s : String)
  | bool (b : Bool)
  | arr (elems : List Json)
  | obj (fields : List (String × Json))
deriving Repr

/-- One queue entry serialized: `{"path": ...}`. -/
def entryToJson (e : DolphinEntry) : Json :=
  Json.obj [("path", Json.str e.path)]

/-- `JSON.stringify({ ...dolphinQueueOptions, queue }, undefined, 2)` at the
document level: the option fields spread first, then the ordered `queue`
array of `{path}` objects. -/
def queueFormatToJson (q : DolphinQueueFormat) : Json :=
  Json.obj
    [("mode", Json.str q.options.mode),
     ("replay", Json.str q.options.replay),
     ("isRealTimeMode", Json.bool q.options.isRealTimeMode),
     ("outputOverlayFiles", Json.bool q.options.outputOverlayFiles),
     ("queue", Json.arr (q.queue.map entryToJson))]

/-- First value bound to `key` in a JSON object's field list. -/
def jsonLookup : List (String × Json) → String → Option Json
  | [], _ => none
  | (k, v) :: rest, key => if k = key then some v else jsonLookup rest key

/-- Read a JSON value as a string. -/
def asStr : Json → Option String
  | Json.str s => some s
  | _ => none

/-- Read a JSON value as a boolean. -/
def asBool : Json → Option Bool
  | Json.bool b => some b
  | _ => none

/-- Modelled from the spec: the playback engine's reading of one `{path}`
entry of the persisted document. -/
def entryOfJson : Json → Option DolphinEntry
  | Json.obj fields =>
    ((jsonLookup fields "path").bind asStr).map (fun p => { path := p })
  | _ => none

/-- Modelled from the spec: reading the `queue` array element by element,
in order; any malformed entry fails the whole parse. -/
def entriesOfJson : List Json → Option (List DolphinEntry)
  | [] => some []
  | j :: js => do
    let e ← entryOfJson j
    let es ← entriesOfJson js
    pure (e :: es)

/-- Modelled from the spec: parsing the persisted queue document
`{ ...queueOptions, queue: [{path}, ...] }` back into options and the
ordered file list (the parser lives in the playback engine, outside this
repository's sources). -/
def queueFormatOfJson : Json → Option DolphinQueueFormat
  | Json.obj fields => do
    let mode ← (jsonLookup fields "mode").bind asStr
    let replay ← (jsonLookup fields "replay").bind asStr
    let rt ← (jsonLookup fields "isRealTimeMode").bind asBool
    let ov ← (jsonLookup fields "outputOverlayFiles").bind asBool
    let queueJson ← jsonLookup fields "queue"
    match queueJson with
    | Json.arr elems => do
      let entries ← entriesOfJson elems
      pure { options :=
               { mode := mode, replay := replay,
                 isRealTimeMode := rt, outputOverlayFiles := ov },
             queue := entries }
    | _ => none
  | _ => none

/-- The process-wide `tempContainer` slice of the store that the queue
export reads: the pending queue and its options. -/
structure TempContainerState where
  dolphinQueue : List DolphinEntry
  dolphinQueueOptions : DolphinQueueOptions
deriving DecidableEq, Repr

/-- A file written to disk: destination path and document contents. -/
structure FileWrite where
  path : String
  contents : Json
deriving Repr

/-- JS falsiness of the save-path result (`!p`): `undefined` or `""`. -/
def falsyPath : Option String → Bool
  | none => true
  | some s => s.isEmpty

/-- `saveQueueToFile()`: ask the user for a save path; when it is falsy,
log and return before touching the store or the disk; otherwise build
`{ ...dolphinQueueOptions, queue: dolphinQueue }` from the store and write
its serialization to the chosen path.  Returns the (unchanged) store slice
and the list of file writes performed. -/
def saveQueueToFile (savePath : Option String) (st : TempContainerState) :
    TempContainerState × List FileWrite :=
  if falsyPath savePath then
    (st, [])
  else
    match savePath with
    | some p =>
      (st, [{ path := p,
              contents := queueFormatToJson
                { options := st.dolphinQueueOptions, queue := st.dolphinQueue } }])
    | none => (st, [])

theorem timedCmdsOfTrace_bounds (i : Nat) (tr : List Effect) :
    ∀ t c, c ∈ timedCmdsOfTrace i t tr →
      c.eventIdx = i ∧ t ≤ c.start ∧ c.start ≤ c.finish ∧
        c.finish ≤ t + traceDuration tr := by
  induction tr with
  | nil => intro t c hc; simp [timedCmdsOfTrace] at hc
  | cons e es ih =>
    intro t c hc
    cases e with
    | cmd a f d =>
      simp only [timedCmdsOfTrace, List.mem_cons] at hc
      rcases hc with h | h
      · subst h
        refine ⟨rfl, Nat.le_refl t, Nat.le_add_right t d, ?_⟩
        simp only [traceDuration, effectTime]
        omega
      · have hb := ih (t + d) c h
        simp only [traceDuration, effectTime]
        refine ⟨hb.1, by omega, hb.2.2.1, by omega⟩
    | queryIsRecording b =>
      simp only [timedCmdsOfTrace] at hc
      have hb := ih _ c hc
      simp only [traceDuration]
      refine ⟨hb.1, by omega, hb.2.2.1, by omega⟩
    | setBasename n =>
      simp only [timedCmdsOfTrace] at hc
      have hb := ih _ c hc
      simp only [traceDuration]
      refine ⟨hb.1, by omega, hb.2.2.1, by omega⟩
    | killDolphin =>
      simp only [timedCmdsOfTrace] at hc
      have hb := ih _ c hc
      simp only [traceDuration]
      refine ⟨hb.1, by omega, hb.2.2.1, by omega⟩
    | sleep ms =>
      simp only [timedCmdsOfTrace] at hc
      have hb := ih _ c hc
      simp only [traceDuration]
      refine ⟨hb.1, by omega, hb.2.2.1, by omega⟩

theorem timedCmdsOfTrace_pairwise (i : Nat) (tr : List Effect) :
    ∀ t, (timedCmdsOfTrace i t tr).Pairwise (fun c₁ c₂ => c₁.finish ≤ c₂.start) := by
  induction tr with
  | nil => intro t; simp [timedCmdsOfTrace]
  | cons e es ih =>
    intro t
    cases e with
    | cmd a f d =>
      simp only [timedCmdsOfTrace]
      refine List.pairwise_cons.mpr ⟨?_, ih (t + d)⟩
      intro c hc
      have hb := timedCmdsOfTrace_bounds i es (t + d) c hc
      simp only
      omega
    | queryIsRecording b => simp only [timedCmdsOfTrace]; exact ih _
    | setBasename n => simp only [timedCmdsOfTrace]; exact ih _
    | killDolphin => simp only [timedCmdsOfTrace]; exact ih _
    | sleep ms => simp only [timedCmdsOfTrace]; exact ih _

theorem timedCmdsOfTrace_cmdOrdered (i t : Nat) (tr : List Effect) :
    (timedCmdsOfTrace i t tr).Pairwise CmdOrdered := by
  refine (timedCmdsOfTrace_pairwise i tr t).imp_of_mem ?_
  intro c₁ c₂ h₁ h₂ hr
  have hb₁ := timedCmdsOfTrace_bounds i tr t c₁ h₁
  have hb₂ := timedCmdsOfTrace_bounds i tr t c₂ h₂
  exact ⟨by rw [hb₁.1, hb₂.1], hr⟩

theorem timedCmdsOfRun_mem (trs : List (Nat × List Effect)) :
    ∀ t c, c ∈ timedCmdsOfRun t trs →
      t ≤ c.start ∧ ∃ pr, pr ∈ trs ∧ c.eventIdx = pr.1 := by
  induction trs with
  | nil => intro t c hc; simp [timedCmdsOfRun] at hc
  | cons itr rest ih =>
    intro t c hc
    obtain ⟨i, tr⟩ := itr
    simp only [timedCmdsOfRun, List.mem_append] at hc
    rcases hc with h | h
    · have hb := timedCmdsOfTrace_bounds i tr t c h
      exact ⟨hb.2.1, ⟨(i, tr), by simp, hb.1⟩⟩
    · have hm := ih (t + traceDuration tr) c h
      obtain ⟨pr, hpr, he⟩ := hm.2
      refine ⟨by omega, pr, by simp [hpr], he⟩

theorem timedCmdsOfRun_pairwise (trs : List (Nat × List Effect)) :
    ∀ t, trs.Pairwise (fun a b => a.1 < b.1) →
      (timedCmdsOfRun t trs).Pairwise CmdOrdered := by
  induction trs with
  | nil => intro t _; simp [timedCmdsOfRun]
  | cons itr rest ih =>
    intro t hp
    obtain ⟨i, tr⟩ := itr
    rw [List.pairwise_cons] at hp
    simp only [timedCmdsOfRun]
    refine List.pairwise_append.mpr
      ⟨timedCmdsOfTrace_cmdOrdered i t tr, ih _ hp.2, ?_⟩
    intro x hx y hy
    have hbx := timedCmdsOfTrace_bounds i tr t x hx
    have hmy := timedCmdsOfRun_mem rest (t + traceDuration tr) y hy
    obtain ⟨pr, hpr, he⟩ := hmy.2
    have hlt : i < pr.1 := hp.1 pr hpr
    refine ⟨?_, ?_⟩
    · rw [hbx.1, he]; omega
    · have := hbx.2.2.2
      omega

theorem runEventsAux_indices (evs : List (DolphinPlaybackPayload × EventEnv)) :
    ∀ s i, (∀ pr ∈ (runEventsAux s i evs).traces, i ≤ pr.1) ∧
      (runEventsAux s i evs).traces.Pairwise (fun a b => a.1 < b.1) := by
  induction evs with
  | nil => intro s i; simp [runEventsAux]
  | cons pe rest ih =>
    intro s i
    obtain ⟨payload, env⟩ := pe
    simp only [runEventsAux]
    split
    · split
      · constructor
        · intro pr hpr
          simp only [List.mem_singleton] at hpr
          subst hpr
          exact Nat.le_refl i
        · simp
      · have hih := ih (handleDolphinPlayback s env payload).state (i + 1)
        constructor
        · intro pr hpr
          simp only [List.mem_cons] at hpr
          rcases hpr with h | h
          · subst h; exact Nat.le_refl i
          · have := hih.1 pr h
            omega
        · refine List.pairwise_cons.mpr ⟨?_, hih.2⟩
          intro pr hpr
          have := hih.1 pr hpr
          omega
    · have hih := ih s (i + 1)
      exact ⟨fun pr hpr => by have := hih.1 pr hpr; omega, hih.2⟩

/-- C1: for every sequence of playback lifecycle events, the
`setRecordingState` commands issued to the OBS connection are pairwise
ordered: a command caused by an earlier emission never follows one caused
by a later emission, and each command's round-trip (including any settle
delay before it) finishes before the next command begins — at most one
command is in flight at any time, and handling of event N+1 does not begin
until the asynchronous handling of event N has fully completed. -/
theorem C1_commands_serialized (s : DolphinRecorder)
    (evs : List (DolphinPlaybackPayload × EventEnv)) (t : Nat) :
    (timedCmdsOfRun t (runEvents s evs).traces).Pairwise CmdOrdered :=
  timedCmdsOfRun_pairwise _ t (runEventsAux_indices evs s 0).2

/-- A recorder whose queue was loaded with recording enabled and
pause-between-entries mode, with a live Dolphin process. -/
def armedRecorder : DolphinRecorder :=
  { recordingEnabled := true,
    startAction := OBSRecordingAction.UNPAUSE,
    endAction := OBSRecordingAction.PAUSE,
    currentBasename := "",
    dolphinAlive := true }

/-- OBS connected, device idle, command round-trip succeeds instantly. -/
def envIdle : EventEnv :=
  { connected := true, recording := false, cmdFails := false, cmdDuration := 0 }

/-- OBS connected, device idle, but the command round-trip rejects. -/
def envCmdRejects : EventEnv :=
  { connected := true, recording := false, cmdFails := true, cmdDuration := 0 }

/-- A `PLAYBACK_START` event with no data payload. -/
def startPayload : DolphinPlaybackPayload :=
  { status := DolphinPlaybackStatus.PLAYBACK_START, data := none }

/-- C2 counterexample: with recording enabled and OBS connected, when the
`setRecordingState` of the first event rejects, the run ends in the errored
state and the second event is never handled (its index contributes no
trace) — the failure is not swallowed and the subscription does not
survive. -/
theorem C2_counterexample :
    (runEvents armedRecorder
      [(startPayload, envCmdRejects), (startPayload, envIdle)]).errored = true ∧
    (runEvents armedRecorder
      [(startPayload, envCmdRejects), (startPayload, envIdle)]).traces.map Prod.fst
      = [0] :=
  ⟨rfl, rfl⟩

/-- C2 (amended): if the `setRecordingState` command rejects while handling
an event, the rejection propagates out of the handler promise, through
`concatMap`, to the bare `subscribe()`: the run records only that event's
trace, ends errored, and no subsequent event is handled. -/
theorem C2_amended_rejection_ends_subscription (s : DolphinRecorder) (i : Nat)
    (payload : DolphinPlaybackPayload) (env : EventEnv)
    (rest : List (DolphinPlaybackPayload × EventEnv))
    (hg : (s.recordingEnabled && env.connected) = true)
    (he : (handleDolphinPlayback s env payload).errored = true) :
    runEventsAux s i ((payload, env) :: rest) =
      { state := (handleDolphinPlayback s env payload).state,
        traces := [(i, (handleDolphinPlayback s env payload).trace)],
        errored := true } := by
  simp only [runEventsAux, hg, he, if_true]

theorem C2_amended_rejection_ends_subscription_witness :
    runEventsAux armedRecorder 0 [(startPayload, envCmdRejects), (startPayload, envIdle)] =
      { state := (handleDolphinPlayback armedRecorder envCmdRejects startPayload).state,
        traces := [(0, (handleDolphinPlayback armedRecorder envCmdRejects startPayload).trace)],
        errored := true } :=
  C2_amended_rejection_ends_subscription armedRecorder 0 startPayload envCmdRejects
    [(startPayload, envIdle)] rfl rfl

/-- C3 counterexample: with recording enabled, OBS connected and a live
Dolphin process, but the device reporting itself not recording, a
`QUEUE_EMPTY` event issues no `setRecordingState` command at all — the hard
`STOP` is guarded by `isRecording()`, contradicting "regardless of prior
recording state". -/
theorem C3_counterexample :
    armedRecorder.recordingEnabled = true ∧ envIdle.connected = true ∧
    armedRecorder.dolphinAlive = true ∧ envIdle.recording = false ∧
    runCmds (runEvents armedRecorder
      [({ status := DolphinPlaybackStatus.QUEUE_EMPTY, data := none }, envIdle)]) = [] :=
  ⟨rfl, rfl, rfl, rfl, rfl⟩

/-- C3 (amended): under the armed gate, `QUEUE_EMPTY` issues a hard `STOP`
exactly when the device reports itself recording — regardless of
`pauseBetweenEntries` (the stored end action is never consulted) — and
kills the Dolphin process exactly when its handle is live and no `STOP`
rejection intervened. -/
theorem C3_queue_empty_stop (s : DolphinRecorder) (env : EventEnv)
    (d : Option PlaybackData)
    (hr : s.recordingEnabled = true) (hc : env.connected = true) :
    runCmds (runEvents s
      [({ status := DolphinPlaybackStatus.QUEUE_EMPTY, data := d }, env)]) =
      (if env.recording then [OBSRecordingAction.STOP] else []) ∧
    (Effect.killDolphin ∈ runEffects (runEvents s
        [({ status := DolphinPlaybackStatus.QUEUE_EMPTY, data := d }, env)]) ↔
      (s.dolphinAlive && (!env.recording || !env.cmdFails)) = true) := by
  cases henv : env.recording <;> cases hf : env.cmdFails <;> cases ha : s.dolphinAlive <;>
    simp [runEvents, runEventsAux, handleDolphinPlayback, stopRecordingRun,
      runCmds, runEffects, traceCmds, hr, hc, henv, hf, ha]

theorem C3_queue_empty_stop_witness :
    runCmds (runEvents armedRecorder
      [({ status := DolphinPlaybackStatus.QUEUE_EMPTY, data := none }, envIdle)]) =
      (if envIdle.recording then [OBSRecordingAction.STOP] else []) ∧
    (Effect.killDolphin ∈ runEffects (runEvents armedRecorder
        [({ status := DolphinPlaybackStatus.QUEUE_EMPTY, data := none }, envIdle)]) ↔
      (armedRecorder.dolphinAlive && (!envIdle.recording || !envIdle.cmdFails)) = true) :=
  C3_queue_empty_stop armedRecorder envIdle none rfl rfl

/-- C4: when recording is disabled in the stored mode or OBS reports itself
not connected, an arriving playback event of any kind is dropped by the
gate — the run is exactly the run of the remaining events, with no effects
and no state change — and the engine-process-exited signal likewise
performs no recording action. -/
theorem C4_gate_drops_events (s : DolphinRecorder) (i : Nat)
    (payload : DolphinPlaybackPayload) (env : EventEnv)
    (rest : List (DolphinPlaybackPayload × EventEnv))
    (h : s.recordingEnabled = false ∨ env.connected = false) :
    runEventsAux s i ((payload, env) :: rest) = runEventsAux s (i + 1) rest ∧
    handleDolphinQuit s env = { state := s, trace := [], errored := false } := by
  have hg : (s.recordingEnabled && env.connected) = false := by
    rcases h with h | h <;> simp [h]
  constructor
  · simp [runEventsAux, hg]
  · simp [handleDolphinQuit, hg]

theorem C4_gate_drops_events_witness :
    runEventsAux initialRecorder 0 [(startPayload, envIdle)] = runEventsAux initialRecorder 1 [] ∧
    handleDolphinQuit initialRecorder envIdle =
      { state := initialRecorder, trace := [], errored := false } :=
  C4_gate_drops_events initialRecorder 0 startPayload envIdle [] (Or.inl rfl)

/-- C5: after loading a queue with recording enabled and pause mode `p`, a
`PLAYBACK_START` event processed under the armed gate issues the mode's
resume action when the device reports recording (`UNPAUSE` when
`pauseBetweenEntries`, else `START`) and a plain `START` when the device
reports not recording, regardless of `pauseBetweenEntries`. -/
theorem C5_playback_start_action (s0 : DolphinRecorder) (p : Bool)
    (env : EventEnv) (d : Option PlaybackData) (hc : env.connected = true) :
    runCmds (runEvents
      (loadJSON s0 (some { record := some true, pauseBetweenEntries := some p }))
      [({ status := DolphinPlaybackStatus.PLAYBACK_START, data := d }, env)]) =
      [if env.recording then
         (if p then OBSRecordingAction.UNPAUSE else OBSRecordingAction.START)
       else OBSRecordingAction.START] := by
  cases p <;> cases henv : env.recording <;> cases hcf : env.cmdFails <;>
    simp [loadJSON, assignPlayerOptions, defaultDolphinPlayerOptions, runEvents,
      runEventsAux, handleDolphinPlayback, runCmds, traceCmds, hc, henv, hcf]

theorem C5_playback_start_action_witness :
    runCmds (runEvents
      (loadJSON initialRecorder (some { record := some true, pauseBetweenEntries := some true }))
      [({ status := DolphinPlaybackStatus.PLAYBACK_START, data := none }, envIdle)]) =
      [if envIdle.recording then
         (if true then OBSRecordingAction.UNPAUSE else OBSRecordingAction.START)
       else OBSRecordingAction.START] :=
  C5_playback_start_action initialRecorder true envIdle none rfl

/-- C6: after loading a queue with recording enabled and pause mode `p`, a
`PLAYBACK_END` event processed under the armed gate at time `t` issues
exactly one command — the mode's suspend action (`PAUSE` when
`pauseBetweenEntries`, else `STOP`) — whose round-trip starts at
`t + DELAY_AMOUNT_MS` when the payload reports the game ended naturally and
at `t` (no artificial delay) otherwise. -/
theorem C6_playback_end_timing (s0 : DolphinRecorder) (p : Bool)
    (env : EventEnv) (d : Option PlaybackData) (t : Nat) (hc : env.connected = true) :
    timedCmdsOfRun t (runEvents
      (loadJSON s0 (some { record := some true, pauseBetweenEntries := some p }))
      [({ status := DolphinPlaybackStatus.PLAYBACK_END, data := d }, env)]).traces =
      [{ eventIdx := 0,
         action := if p then OBSRecordingAction.PAUSE else OBSRecordingAction.STOP,
         start := t + (if dataGameEnded d then DELAY_AMOUNT_MS else 0),
         finish := t + (if dataGameEnded d then DELAY_AMOUNT_MS else 0) + env.cmdDuration }] := by
  cases p <;> cases hd : dataGameEnded d <;> cases hcf : env.cmdFails <;>
    simp [loadJSON, assignPlayerOptions, defaultDolphinPlayerOptions, runEvents,
      runEventsAux, handleDolphinPlayback, timedCmdsOfRun, timedCmdsOfTrace,
      effectTime, hc, hd, hcf]

theorem C6_playback_end_timing_witness :
    timedCmdsOfRun 7 (runEvents
      (loadJSON initialRecorder (some { record := some true, pauseBetweenEntries := some false }))
      [({ status := DolphinPlaybackStatus.PLAYBACK_END, data := some { gameEnded := true } },
        envIdle)]).traces =
      [{ eventIdx := 0,
         action := if false then OBSRecordingAction.PAUSE else OBSRecordingAction.STOP,
         start := 7 + (if dataGameEnded (some { gameEnded := true }) then DELAY_AMOUNT_MS else 0),
         finish := 7 + (if dataGameEnded (some { gameEnded := true }) then DELAY_AMOUNT_MS else 0)
           + envIdle.cmdDuration }] :=
  C6_playback_end_timing initialRecorder false envIdle (some { gameEnded := true }) 7 rfl

theorem loadSlpFilesInDolphin_some (fns : List String) (q : List DolphinEntry)
    (h : loadSlpFilesInDolphin fns = some q) :
    q = (fns.filter (fun f => extname f = ".slp")).map
      (fun f => ({ path := f } : DolphinEntry)) := by
  simp only [loadSlpFilesInDolphin] at h
  split at h
  · exact Option.noConfusion h
  · exact (Option.some.inj h).symm

/-- C7: materializing `["a.slp","a.txt","b.slp"]` yields a queue
referencing exactly `["a.slp","b.slp"]`; materializing `["a.txt"]` yields
no queue and no write; and in general a materialized queue lists exactly
the input entries with the `.slp` extension, in their original relative
order (a sublist of the input). -/
theorem C7_materialize_filters :
    loadSlpFilesInDolphin ["a.slp", "a.txt", "b.slp"] =
      some [{ path := "a.slp" }, { path := "b.slp" }] ∧
    loadSlpFilesInDolphin ["a.txt"] = none ∧
    ∀ fns q, loadSlpFilesInDolphin fns = some q →
      q.map DolphinEntry.path = fns.filter (fun f => extname f = ".slp") ∧
      List.Sublist (q.map DolphinEntry.path) fns := by
  refine ⟨rfl, rfl, ?_⟩
  intro fns q h
  have hq := loadSlpFilesInDolphin_some fns q h
  subst hq
  have hmapGen : ∀ l : List String,
      ((l.map (fun f => ({ path := f } : DolphinEntry))).map DolphinEntry.path) = l := by
    intro l
    induction l with
    | nil => rfl
    | cons a as ih => simp [ih]
  have hmap := hmapGen (fns.filter (fun f => extname f = ".slp"))
  refine ⟨hmap, ?_⟩
  rw [hmap]
  exact List.filter_sublist fns

theorem C7_materialize_filters_witness :
    (([{ path := "x.slp" }] : List DolphinEntry).map DolphinEntry.path =
      ["x.slp"].filter (fun f => extname f = ".slp")) ∧
    List.Sublist (([{ path := "x.slp" }] : List DolphinEntry).map DolphinEntry.path)
      ["x.slp"] :=
  C7_materialize_filters.2.2 ["x.slp"] [{ path := "x.slp" }] rfl

theorem entriesOfJson_map_entryToJson (l : List DolphinEntry) :
    entriesOfJson (l.map entryToJson) = some l := by
  induction l with
  | nil => rfl
  | cons e es ih =>
    simp [entriesOfJson, entryToJson, entryOfJson, jsonLookup, asStr, ih]

/-- C8: serializing a queue document (queue-level options plus the ordered
list of `{path}` entries) to the persisted JSON format and parsing the
resulting document back yields exactly the same options and the same
ordered file list. -/
theorem C8_roundtrip (q : DolphinQueueFormat) :
    queueFormatOfJson (queueFormatToJson q) = some q := by
  obtain ⟨⟨m, r, rt, ov⟩, entries⟩ := q
  simp [queueFormatToJson, queueFormatOfJson, jsonLookup, asStr, asBool,
    entriesOfJson_map_entryToJson]

/-- C9: when the caller-chosen save path resolves to nothing (undefined or
empty), the queue export logs and aborts: no file is written and the
process-wide queue state is returned unchanged. -/
theorem C9_missing_save_path (st : TempContainerState) (p : Option String)
    (h : falsyPath p = true) :
    saveQueueToFile p st = (st, []) := by
  simp [saveQueueToFile, h]

theorem C9_missing_save_path_witness :
    saveQueueToFile none
      { dolphinQueue := [{ path := "a.slp" }],
        dolphinQueueOptions :=
          { mode := "queue", replay := "", isRealTimeMode := false,
            outputOverlayFiles := true } } =
      ({ dolphinQueue := [{ path := "a.slp" }],
         dolphinQueueOptions :=
           { mode := "queue", replay := "", isRealTimeMode := false,
             outputOverlayFiles := true } }, []) :=
  C9_missing_save_path _ none rfl

theorem stopRecordingRun_resets_basename (s : DolphinRecorder) (env : EventEnv)
    (k : Bool) :
    (stopRecordingRun s env k).trace.head? = some (Effect.setBasename "") ∧
    (stopRecordingRun s env k).state.currentBasename = "" := by
  cases henv : env.recording <;> cases hf : env.cmdFails <;> cases hk : k <;>
    cases ha : s.dolphinAlive <;> simp [stopRecordingRun, henv, hf, hk, ha]

/-- C10: every invocation of `_stopRecording` — the `QUEUE_EMPTY` branch of
the playback handler dispatches to it with the kill flag, and the
engine-process-exited subscription without it — performs the reset of the
observable current-basename value to `""` as its very first step,
unconditionally: before the `isRecording()` query and any command, and also
when the device is not recording. -/
theorem C10_stop_recording_resets_basename (s : DolphinRecorder) (env : EventEnv)
    (k : Bool) (d : Option PlaybackData) :
    (stopRecordingRun s env k).trace.head? = some (Effect.setBasename "") ∧
    (stopRecordingRun s env k).state.currentBasename = "" ∧
    handleDolphinPlayback s env { status := DolphinPlaybackStatus.QUEUE_EMPTY, data := d } =
      stopRecordingRun s env true ∧
    ((handleDolphinQuit s env).trace = [] ∨
      (handleDolphinQuit s env).trace.head? = some (Effect.setBasename "")) := by
  refine ⟨(stopRecordingRun_resets_basename s env k).1,
    (stopRecordingRun_resets_basename s env k).2, rfl, ?_⟩
  cases hg : (s.recordingEnabled && env.connected) with
  | false => exact Or.inl (by simp [handleDolphinQuit, hg])
  | true =>
    refine Or.inr ?_
    have hh := (stopRecordingRun_resets_basename s env false).1
    simpa [handleDolphinQuit, hg] using hh
